import Mathlib

/-!
Shallow embedding of the Tinkoff portfolio balance reporting package
(model.go, reporting.go and the main package source file): operation
filtering, the per-instrument balance item builder, the price resolver,
the fan-out collection loop of GetPortfolioBalance and the per-currency
roll-up.  Go float64 arithmetic is modelled by exact rationals, Go int by
the integers, and math.Round by rounding half away from zero.  External
SDK calls (Client.Candles, SearchInstrumentByFIGI) and goroutine
scheduling are modelled by explicit environments and explicit arrival
schedules.
-/

/-- Go math.Round: round to the nearest integer, half away from zero. -/
def goRound (x : ℚ) : ℤ := if 0 ≤ x then ⌊x + 1/2⌋ else ⌈x - 1/2⌉

/-- The 2-decimal rounding step math.Round(100*x)/100 applied to every
monetary field in balanceItemToCh and in GetPortfolioBalance. -/
def round2 (x : ℚ) : ℚ := ((goRound (100 * x) : ℚ)) / 100

lemma goRound_intCast (n : ℤ) : goRound (n : ℚ) = n := by
  unfold goRound
  split
  · rw [add_comm, Int.floor_add_int]
    norm_num
  · rw [show ((n : ℚ) - 1/2) = (-(1/2) + (n : ℚ)) by ring, Int.ceil_add_int]
    norm_num

lemma round2_round2 (x : ℚ) : round2 (round2 x) = round2 x := by
  unfold round2
  rw [show (100 : ℚ) * ((goRound (100 * x) : ℚ) / 100) = ((goRound (100 * x) : ℚ)) by
        field_simp,
      goRound_intCast]

lemma round2_zero : round2 0 = 0 := by
  unfold round2 goRound
  norm_num

/-- One brokerage operation, the fields of sdk.Operation the package reads:
FIGI, OperationType, Status, Currency, Payment, Commission.Value (modelled
as Commission) and Quantity. -/
structure Operation where
  FIGI : String
  OperationType : String
  Status : String
  Currency : String
  Payment : ℚ
  Commission : ℚ
  Quantity : ℤ
  deriving DecidableEq

/-- Go helper contains(slice, item): linear scan for string membership. -/
def contains (slice : List String) (item : String) : Bool :=
  slice.any fun elem => elem == item

/-- The filterOperationsCriteria struct. -/
structure filterOperationsCriteria where
  FIGIs : List String
  Status : String
  OperationTypes : List String
  ExcludeFIGIs : List String
  deriving DecidableEq

/-- The conjunction tested inside the loop of filterOperations: every
empty criteria field matches everything. -/
def matchesCriteria (criteria : filterOperationsCriteria) (oper : Operation) : Bool :=
  (criteria.FIGIs.isEmpty || contains criteria.FIGIs oper.FIGI) &&
  (criteria.Status == "" || oper.Status == criteria.Status) &&
  (criteria.OperationTypes.isEmpty || contains criteria.OperationTypes oper.OperationType) &&
  (criteria.ExcludeFIGIs.isEmpty || !contains criteria.ExcludeFIGIs oper.FIGI)

/-- Go filterOperations: a nil criteria pointer (modelled as none) yields
the empty result; otherwise the loop keeps, in input order, the
operations satisfying the criteria conjunction. -/
def filterOperations (operations : List Operation) :
    Option filterOperationsCriteria → List Operation
  | none => []
  | some criteria => operations.filter fun oper => matchesCriteria criteria oper

/-- Result of sdk SearchInstrumentByFIGI, the fields the package reads. -/
structure SearchInstrument where
  FIGI : String
  Ticker : String
  Name : String
  Currency : String
  deriving DecidableEq

/-- The TcfBalanceItem struct of model.go. -/
structure TcfBalanceItem where
  FIGI : String
  Name : String
  Ticker : String
  Currency : String
  OperationAmount : ℚ
  BrokerCommissionAmount : ℚ
  CurrentPrice : ℚ
  PortfolioAmount : ℚ
  PortfolioQuantity : ℤ
  DividendAmount : ℚ
  DividendTaxAmount : ℚ
  ServiceCommissionAmount : ℚ
  BalanceAmount : ℚ
  deriving DecidableEq

/-- Go createBalanceItem of model.go: identity fields from the instrument,
every accumulator zero (CurrentPrice is left at the Go zero value). -/
def createBalanceItem (instrument : SearchInstrument) : TcfBalanceItem :=
  { FIGI := instrument.FIGI
    Ticker := instrument.Ticker
    Name := instrument.Name
    Currency := instrument.Currency
    OperationAmount := 0
    BrokerCommissionAmount := 0
    CurrentPrice := 0
    PortfolioAmount := 0
    PortfolioQuantity := 0
    DividendAmount := 0
    DividendTaxAmount := 0
    ServiceCommissionAmount := 0
    BalanceAmount := 0 }

/-- The sign variable of the buy/sell loop in balanceItemToCh:
1.0, overwritten with -1.0 for a Sell operation. -/
def tradeSign (oper : Operation) : ℚ :=
  if oper.OperationType = "Sell" then -1 else 1

/-- int(sign) as used for the quantity accumulation. -/
def tradeSignInt (oper : Operation) : ℤ :=
  if oper.OperationType = "Sell" then -1 else 1

/-- One iteration of the buy/sell loop of balanceItemToCh. -/
def applyTrade (b : TcfBalanceItem) (oper : Operation) : TcfBalanceItem :=
  { b with
    BrokerCommissionAmount := b.BrokerCommissionAmount + |oper.Commission|
    OperationAmount := b.OperationAmount + tradeSign oper * |oper.Payment|
    PortfolioQuantity := b.PortfolioQuantity + tradeSignInt oper * oper.Quantity }

/-- One iteration of the dividend loop of balanceItemToCh. -/
def applyDividend (b : TcfBalanceItem) (oper : Operation) : TcfBalanceItem :=
  { b with DividendAmount := b.DividendAmount + |oper.Payment| }

/-- One iteration of the dividend tax loop of balanceItemToCh. -/
def applyDividendTax (b : TcfBalanceItem) (oper : Operation) : TcfBalanceItem :=
  { b with DividendTaxAmount := b.DividendTaxAmount + |oper.Payment| }

/-- Criteria value selecting the instrument of the launched computation. -/
def figiCriteria (figi : String) : filterOperationsCriteria :=
  ⟨[figi], "", [], []⟩

/-- Criteria value of the buy/sell loop. -/
def tradeCriteria : filterOperationsCriteria :=
  ⟨[], "", ["Buy", "BuyCard", "Sell"], []⟩

/-- Criteria value of the dividend loop. -/
def dividendCriteria : filterOperationsCriteria :=
  ⟨[], "", ["Dividend"], []⟩

/-- Criteria value of the dividend tax loop. -/
def dividendTaxCriteria : filterOperationsCriteria :=
  ⟨[], "", ["TaxDividend"], []⟩

/-- The buy/sell accumulation loop of balanceItemToCh. -/
def balanceTradeStage (figiOperations : List Operation) (b : TcfBalanceItem) : TcfBalanceItem :=
  (filterOperations figiOperations (some tradeCriteria)).foldl applyTrade b

/-- The negative-quantity clamp of balanceItemToCh. -/
def clampStage (b : TcfBalanceItem) : TcfBalanceItem :=
  if b.PortfolioQuantity < 0 then { b with PortfolioQuantity := 0 } else b

/-- PortfolioAmount := float64(PortfolioQuantity) * CurrentPrice. -/
def portfolioAmountStage (b : TcfBalanceItem) : TcfBalanceItem :=
  { b with PortfolioAmount := (b.PortfolioQuantity : ℚ) * b.CurrentPrice }

/-- The dividend accumulation loop of balanceItemToCh. -/
def dividendStage (figiOperations : List Operation) (b : TcfBalanceItem) : TcfBalanceItem :=
  (filterOperations figiOperations (some dividendCriteria)).foldl applyDividend b

/-- The dividend tax accumulation loop of balanceItemToCh. -/
def dividendTaxStage (figiOperations : List Operation) (b : TcfBalanceItem) : TcfBalanceItem :=
  (filterOperations figiOperations (some dividendTaxCriteria)).foldl applyDividendTax b

/-- The block of five math.Round(100*x)/100 assignments of balanceItemToCh. -/
def roundStage (b : TcfBalanceItem) : TcfBalanceItem :=
  { b with
    BrokerCommissionAmount := round2 b.BrokerCommissionAmount
    OperationAmount := round2 b.OperationAmount
    PortfolioAmount := round2 b.PortfolioAmount
    DividendAmount := round2 b.DividendAmount
    DividendTaxAmount := round2 b.DividendTaxAmount }

/-- The final BalanceAmount assignment of balanceItemToCh. -/
def balanceAmountStage (b : TcfBalanceItem) : TcfBalanceItem :=
  { b with
    BalanceAmount := round2 (b.PortfolioAmount + b.DividendAmount - b.DividendTaxAmount -
      b.OperationAmount - b.BrokerCommissionAmount) }

/-- The pure body of the goroutine of balanceItemToCh, after the two
external calls resolved currentPrice and instrument: filter to the FIGI,
accumulate trades, clamp, price the holding, accumulate dividends and
dividend taxes, round every accumulator, compute BalanceAmount. -/
def balanceItemCompute (figi : String) (operations : List Operation)
    (currentPrice : ℚ) (instrument : SearchInstrument) : TcfBalanceItem :=
  let figiOperations := filterOperations operations (some (figiCriteria figi))
  balanceAmountStage (roundStage (dividendTaxStage figiOperations
    (dividendStage figiOperations (portfolioAmountStage (clampStage
      (balanceTradeStage figiOperations
        ({ createBalanceItem instrument with CurrentPrice := currentPrice })))))))

/-- Net signed quantity of a list of operations: +Quantity for buys,
-Quantity for sells, as accumulated by the buy/sell loop. -/
def netSignedQuantity (l : List Operation) : ℤ :=
  (l.map fun oper => tradeSignInt oper * oper.Quantity).sum

/-- The buy/sell operations a launched computation for figi accumulates. -/
def tradeOperations (figi : String) (operations : List Operation) : List Operation :=
  filterOperations (filterOperations operations (some (figiCriteria figi)))
    (some tradeCriteria)

/-- A price candle, the fields of sdk.Candle the package reads: the
timestamp TS (modelled as an integer instant) and ClosePrice. -/
structure Candle where
  TS : ℤ
  ClosePrice : ℚ
  deriving DecidableEq

/-- Stable insertion used to model sort.SliceStable of candleLatest with
less(i, j) = TS i is after TS j: a candle is placed before the first
candle with a strictly earlier timestamp, so candles with equal
timestamps keep their input order. -/
def insertTSDesc (c : Candle) : List Candle → List Candle
  | [] => [c]
  | x :: xs => if x.TS < c.TS then c :: x :: xs else x :: insertTSDesc c xs

/-- The stable sort of candleLatest: timestamps descending, ties in input
order (the result of sort.SliceStable with the After comparator). -/
def sortSliceStableTSDesc (l : List Candle) : List Candle :=
  l.foldl (fun acc c => insertTSDesc c acc) []

/-- Go candleLatest: stable-sort the candles by timestamp descending and
return the first one, nil (none) when the slice is empty. -/
def candleLatest (candles : List Candle) : Option Candle :=
  match sortSliceStableTSDesc candles with
  | [] => none
  | c :: _ => some c

/-- The sdk candle intervals used by GetCurrentPrice. -/
inductive CandleInterval where
  | min1
  | hour1
  | day1
  deriving DecidableEq

/-- One entry of the requests slice of GetCurrentPrice: the candle
interval, the lookback duration and the truncation unit of time.Now, both
in minutes. -/
structure CandleRq where
  Interval : CandleInterval
  DurationMinutes : ℤ
  TruncateMinutes : ℤ
  deriving DecidableEq

/-- First window: last 60 minutes at 1-minute candles, now truncated to
the minute. -/
def rqMin : CandleRq := ⟨CandleInterval.min1, -60, 1⟩

/-- Second window: last 24 hours at 1-hour candles, now truncated to the
hour. -/
def rqHour : CandleRq := ⟨CandleInterval.hour1, -24 * 60, 60⟩

/-- Third window: last 7 days at 1-DAY candles (sdk.CandleInterval1Day in
the source), now truncated to the hour. -/
def rqDay : CandleRq := ⟨CandleInterval.day1, -24 * 7 * 60, 60⟩

/-- The fixed requests slice of GetCurrentPrice, in source order. -/
def requests : List CandleRq := [rqMin, rqHour, rqDay]

/-- The sdk string value of each candle interval. -/
def intervalName : CandleInterval → String
  | CandleInterval.min1 => "1min"
  | CandleInterval.hour1 => "hour"
  | CandleInterval.day1 => "day"

/-- The error built at the end of GetCurrentPrice.  In the source the
message interpolates the FIGI and the leftover loop variables from, to
and interval, which after the loop describe the LAST window of the
requests slice only; wall-clock instants are represented here by the
window parameters that determine them. -/
def priceUnavailableMsg (figi : String) (rq : CandleRq) : String :=
  "Current price cannot be determined for FIGI " ++ figi ++ " and period (" ++
    toString rq.DurationMinutes ++ "m " ++ toString rq.TruncateMinutes ++ "m " ++
    intervalName rq.Interval ++ "). Candles are not available"

/-- True when a fetch outcome makes GetCurrentPrice move on to the next
window: an ok result that is empty or whose latest candle has a zero
close price.  A fetch error never advances. -/
def fetchResultAdvances (r : Except String (List Candle)) : Bool :=
  match r with
  | Except.error _ => false
  | Except.ok candles =>
    match candleLatest candles with
    | none => true
    | some c => c.ClosePrice == 0

/-- The window loop of GetCurrentPrice.  The second argument carries the
values the loop variables hold after the most recent iteration, used by
the final error message. -/
def getCurrentPriceLoop (env : CandleRq → Except String (List Candle))
    (figi : String) : List CandleRq → CandleRq → Except String ℚ
  | [], last => Except.error (priceUnavailableMsg figi last)
  | rq :: rest, _ =>
    match env rq with
    | Except.error e => Except.error e
    | Except.ok candles =>
      match candleLatest candles with
      | none => getCurrentPriceLoop env figi rest rq
      | some candle =>
        if candle.ClosePrice = 0 then getCurrentPriceLoop env figi rest rq
        else Except.ok candle.ClosePrice

/-- Go GetCurrentPrice over an environment env abstracting
Client.Candles for each window of the requests slice.  The dummy second
argument models the zero-valued from/to/interval variables before the
first iteration; requests is non-empty, so it never reaches the message. -/
def GetCurrentPrice (env : CandleRq → Except String (List Candle))
    (figi : String) : Except String ℚ :=
  getCurrentPriceLoop env figi requests ⟨CandleInterval.min1, 0, 0⟩

/-- The TcfTotal struct of model.go. -/
structure TcfTotal where
  BalanceAmount : ℚ
  ServiceCommissionAmount : ℚ
  TaxBack : ℚ
  PortfolioAmount : ℚ
  deriving DecidableEq

/-- The TcfBalanceTotal struct: the currency-keyed totals map.  A key
missing from the Go map yields a nil pointer, modelled as none. -/
structure TcfBalanceTotal where
  Currencies : String → Option TcfTotal

/-- The TcfPortfolioBalance struct of model.go. -/
structure TcfPortfolioBalance where
  Items : List TcfBalanceItem
  Total : TcfBalanceTotal

/-- Go createEmptyBalance of model.go: the totals map is seeded with
exactly RUB, USD and EUR, every field zero (PortfolioAmount is left at
the Go zero value); every other key is absent. -/
def createEmptyBalance : TcfPortfolioBalance :=
  { Items := []
    Total := { Currencies := fun c =>
      if c = "RUB" then some ⟨0, 0, 0, 0⟩
      else if c = "USD" then some ⟨0, 0, 0, 0⟩
      else if c = "EUR" then some ⟨0, 0, 0, 0⟩
      else none } }

/-- A message delivered on one of the two channels of
GetPortfolioBalance: a balance item or an error. -/
inductive ChMsg where
  | item (b : TcfBalanceItem)
  | fail (e : String)

/-- One channel delivery together with the instant it becomes available
to the collection loop (seconds, on an abstract wall clock). -/
structure Arrival where
  time : ℚ
  msg : ChMsg

/-- Outcome of a run of Go code that may return a value, return an error,
or panic on a nil totals-map entry. -/
inductive RunResult (α : Type) where
  | ok (a : α)
  | err (e : String)
  | panicNilMap

/-- True exactly on the ok outcome. -/
def RunResult.isOk {α : Type} : RunResult α → Bool
  | RunResult.ok _ => true
  | _ => false

/-- In-place mutation of one entry of the currency totals map through its
pointer: the entry of cur is replaced, every other entry kept. -/
def updateCurrency (m : String → Option TcfTotal) (cur : String) (t : TcfTotal) :
    String → Option TcfTotal :=
  fun c => if c = cur then some t else m c

/-- The balanceItem case of the select of GetPortfolioBalance: append the
item and add its BalanceAmount and PortfolioAmount into the entry of its
currency.  The source dereferences the map entry without a presence
check; a missing entry is the nil-pointer panic, modelled as none. -/
def applyItem (bal : TcfPortfolioBalance) (b : TcfBalanceItem) :
    Option TcfPortfolioBalance :=
  match bal.Total.Currencies b.Currency with
  | none => none
  | some t => some
    { Items := bal.Items ++ [b]
      Total := ⟨updateCurrency bal.Total.Currencies b.Currency
        ⟨t.BalanceAmount + b.BalanceAmount, t.ServiceCommissionAmount,
         t.TaxBack, t.PortfolioAmount + b.PortfolioAmount⟩⟩ }

/-- The collection loop of GetPortfolioBalance: one select per launched
instrument computation.  Each iteration waits on the two channels
together with a FRESH time.After(20 * time.Second) timer, so an arrival
more than 20 seconds after the previous consumption (measured from the
instant the iteration starts waiting) is the timeout case, as is the
absence of any further arrival. -/
def collectLoop : ℕ → ℚ → List Arrival → TcfPortfolioBalance →
    RunResult TcfPortfolioBalance
  | 0, _, _, bal => RunResult.ok bal
  | _ + 1, _, [], _ => RunResult.err "Timeout error"
  | n + 1, now, a :: rest, bal =>
    if now + 20 < a.time then RunResult.err "Timeout error"
    else
      match a.msg with
      | ChMsg.fail e => RunResult.err e
      | ChMsg.item b =>
        match applyItem bal b with
        | none => RunResult.panicNilMap
        | some bal' => collectLoop n a.time rest bal'

/-- One iteration of the service commission loop of GetPortfolioBalance:
add the absolute payment to the service commission total and subtract it
from the balance total of the operation currency; unchecked map entry. -/
def applyServiceCommission (bal : TcfPortfolioBalance) (oper : Operation) :
    Option TcfPortfolioBalance :=
  match bal.Total.Currencies oper.Currency with
  | none => none
  | some t => some
    { Items := bal.Items
      Total := ⟨updateCurrency bal.Total.Currencies oper.Currency
        ⟨t.BalanceAmount - |oper.Payment|,
         t.ServiceCommissionAmount + |oper.Payment|,
         t.TaxBack, t.PortfolioAmount⟩⟩ }

/-- One iteration of the tax back loop of GetPortfolioBalance: add the
absolute payment to the tax back total and to the balance total of the
operation currency; unchecked map entry. -/
def applyTaxBack (bal : TcfPortfolioBalance) (oper : Operation) :
    Option TcfPortfolioBalance :=
  match bal.Total.Currencies oper.Currency with
  | none => none
  | some t => some
    { Items := bal.Items
      Total := ⟨updateCurrency bal.Total.Currencies oper.Currency
        ⟨t.BalanceAmount + |oper.Payment|,
         t.ServiceCommissionAmount,
         t.TaxBack + |oper.Payment|, t.PortfolioAmount⟩⟩ }

/-- Runs one of the two adjustment loops over its filtered operations;
none is the nil-map-entry panic. -/
def runAdjustments (f : TcfPortfolioBalance → Operation → Option TcfPortfolioBalance) :
    TcfPortfolioBalance → List Operation → Option TcfPortfolioBalance
  | bal, [] => some bal
  | bal, oper :: rest =>
    match f bal oper with
    | none => none
    | some bal' => runAdjustments f bal' rest

/-- Criteria value of the service commission loop. -/
def svcCriteria : filterOperationsCriteria :=
  ⟨[], "", ["ServiceCommission"], []⟩

/-- Criteria value of the tax back loop. -/
def taxBackCriteria : filterOperationsCriteria :=
  ⟨[], "", ["TaxBack"], []⟩

/-- The service commission operations of the full filtered list. -/
def svcOps (operations : List Operation) : List Operation :=
  filterOperations operations (some svcCriteria)

/-- The tax back operations of the full filtered list. -/
def taxBackOps (operations : List Operation) : List Operation :=
  filterOperations operations (some taxBackCriteria)

/-- The final rounding pass of GetPortfolioBalance on one totals entry. -/
def roundTotal (t : TcfTotal) : TcfTotal :=
  ⟨round2 t.BalanceAmount, round2 t.ServiceCommissionAmount,
   round2 t.TaxBack, round2 t.PortfolioAmount⟩

/-- The final rounding loop of GetPortfolioBalance: every entry of the
totals map is rounded in place (map iteration order is irrelevant, the
entries are rounded independently). -/
def roundTotals (bal : TcfPortfolioBalance) : TcfPortfolioBalance :=
  { Items := bal.Items
    Total := { Currencies := fun c => (bal.Total.Currencies c).map roundTotal } }

/-- GetPortfolioBalance after GetOperations returned: create the empty
balance, collect one completion per launched instrument computation (n
computations, arrivals in schedule order), then run the service
commission loop, the tax back loop and the final rounding pass.  An
error or timeout in the collection phase returns before any item is
kept. -/
def aggregateBalance (operations : List Operation) (n : ℕ) (start : ℚ)
    (arrivals : List Arrival) : RunResult TcfPortfolioBalance :=
  match collectLoop n start arrivals createEmptyBalance with
  | RunResult.ok bal =>
    match runAdjustments applyServiceCommission bal (svcOps operations) with
    | none => RunResult.panicNilMap
    | some bal2 =>
      match runAdjustments applyTaxBack bal2 (taxBackOps operations) with
      | none => RunResult.panicNilMap
      | some bal3 => RunResult.ok (roundTotals bal3)
  | RunResult.err e => RunResult.err e
  | RunResult.panicNilMap => RunResult.panicNilMap

/-- Sum of the BalanceAmount of the balance lines of one currency. -/
def itemsBalanceSum (c : String) (items : List TcfBalanceItem) : ℚ :=
  (items.map fun b => if b.Currency = c then b.BalanceAmount else 0).sum

/-- Sum of the PortfolioAmount of the balance lines of one currency. -/
def itemsPortfolioSum (c : String) (items : List TcfBalanceItem) : ℚ :=
  (items.map fun b => if b.Currency = c then b.PortfolioAmount else 0).sum

/-- Sum of the absolute payments of the operations of one currency. -/
def absPaySum (c : String) (l : List Operation) : ℚ :=
  (l.map fun oper => if oper.Currency = c then |oper.Payment| else 0).sum

/-- Every arrival of the list is within 20 seconds of the previous one
(of now for the first), so each select consumes it before its timer. -/
def timely (now : ℚ) : List Arrival → Bool
  | [] => true
  | a :: rest => decide (a.time ≤ now + 20) && timely a.time rest

/-- The instant of the last arrival of the list, now when it is empty. -/
def lastTime (now : ℚ) : List Arrival → ℚ
  | [] => now
  | a :: rest => lastTime a.time rest

/-- The set of currencies present in the totals map of a balance, as a
Boolean predicate. -/
def seededDom (bal : TcfPortfolioBalance) : String → Bool :=
  fun c => (bal.Total.Currencies c).isSome

/-- Every arrival of the list is a balance item whose currency satisfies
the domain predicate. -/
def allSeededItems (dom : String → Bool) (l : List Arrival) : Bool :=
  l.all fun a =>
    match a.msg with
    | ChMsg.item b => dom b.Currency
    | ChMsg.fail _ => false

/-- Every item arrival of the list has a currency satisfying the domain
predicate (error arrivals allowed). -/
def arrivalsSeeded (dom : String → Bool) (l : List Arrival) : Bool :=
  l.all fun a =>
    match a.msg with
    | ChMsg.item b => dom b.Currency
    | ChMsg.fail _ => true

/-- Every operation of the list has a currency satisfying the domain
predicate. -/
def opsSeededIn (dom : String → Bool) (l : List Operation) : Bool :=
  l.all fun oper => dom oper.Currency

/-- Sample instrument for concrete runs. -/
def instr1 : SearchInstrument := ⟨"F1", "TCK", "Name1", "USD"⟩

/-- Sample buy operation for concrete runs. -/
def opBuy : Operation := ⟨"F1", "Buy", "Done", "USD", -1000, -5, 10⟩

/-- Sample sell operation for concrete runs. -/
def opSell : Operation := ⟨"F1", "Sell", "Done", "USD", 500, -3, 5⟩

/-- Sample service commission operation for concrete runs. -/
def opSvc : Operation := ⟨"", "ServiceCommission", "Done", "USD", -7, 0, 0⟩

/-- Sample balance line in USD for concrete runs. -/
def itemUSD : TcfBalanceItem :=
  ⟨"F1", "Name1", "TCK", "USD", 1000, 5, 120, 1200, 10, 0, 0, 0, 195⟩

/-- Second sample balance line in USD for concrete runs. -/
def itemUSD2 : TcfBalanceItem :=
  ⟨"F2", "Name2", "TK2", "USD", 0, 0, 10, 50, 5, 0, 0, 0, 50⟩

/-- Sample balance line whose currency has no seeded totals entry. -/
def itemGBP : TcfBalanceItem :=
  ⟨"F3", "Name3", "TK3", "GBP", 0, 0, 1, 1, 1, 0, 0, 0, 1⟩

/-- Candle environment with data only in the third (7-day) window, where
the latest candle has a zero close and an older candle a nonzero one. -/
def envOnlyDay : CandleRq → Except String (List Candle) := fun rq =>
  if rq.Interval = CandleInterval.day1 then Except.ok [⟨2, 0⟩, ⟨1, 5⟩]
  else Except.ok []

/-- Candle environment with data only in the third (7-day) window, whose
latest candle has a nonzero close. -/
def envDayGood : CandleRq → Except String (List Candle) := fun rq =>
  if rq.Interval = CandleInterval.day1 then Except.ok [⟨2, 7⟩, ⟨1, 5⟩]
  else Except.ok []

/-- Candle environment whose first window is non-empty and has a nonzero
close on an older candle (latest close zero) and whose second window
fails hard. -/
def envZeroLatestThenFailure : CandleRq → Except String (List Candle) := fun rq =>
  if rq = rqMin then Except.ok [⟨2, 0⟩, ⟨1, 5⟩]
  else if rq = rqHour then Except.error "boom"
  else Except.ok []

/-- Candle environment where every window returns no candles. -/
def envAllEmpty : CandleRq → Except String (List Candle) := fun _ =>
  Except.ok []

lemma foldl_applyTrade_quantity (l : List Operation) (b : TcfBalanceItem) :
    (l.foldl applyTrade b).PortfolioQuantity = b.PortfolioQuantity + netSignedQuantity l := by
  induction l generalizing b with
  | nil => simp [netSignedQuantity]
  | cons x xs ih =>
    rw [List.foldl_cons, ih]
    simp only [applyTrade, netSignedQuantity, List.map_cons, List.sum_cons]
    ring

lemma foldl_applyTrade_currentPrice (l : List Operation) (b : TcfBalanceItem) :
    (l.foldl applyTrade b).CurrentPrice = b.CurrentPrice := by
  induction l generalizing b with
  | nil => rfl
  | cons x xs ih =>
    rw [List.foldl_cons, ih]
    rfl

lemma foldl_applyDividend_quantity (l : List Operation) (b : TcfBalanceItem) :
    (l.foldl applyDividend b).PortfolioQuantity = b.PortfolioQuantity := by
  induction l generalizing b with
  | nil => rfl
  | cons x xs ih =>
    rw [List.foldl_cons, ih]
    rfl

lemma foldl_applyDividend_portfolioAmount (l : List Operation) (b : TcfBalanceItem) :
    (l.foldl applyDividend b).PortfolioAmount = b.PortfolioAmount := by
  induction l generalizing b with
  | nil => rfl
  | cons x xs ih =>
    rw [List.foldl_cons, ih]
    rfl

lemma foldl_applyDividendTax_quantity (l : List Operation) (b : TcfBalanceItem) :
    (l.foldl applyDividendTax b).PortfolioQuantity = b.PortfolioQuantity := by
  induction l generalizing b with
  | nil => rfl
  | cons x xs ih =>
    rw [List.foldl_cons, ih]
    rfl

lemma foldl_applyDividendTax_portfolioAmount (l : List Operation) (b : TcfBalanceItem) :
    (l.foldl applyDividendTax b).PortfolioAmount = b.PortfolioAmount := by
  induction l generalizing b with
  | nil => rfl
  | cons x xs ih =>
    rw [List.foldl_cons, ih]
    rfl

lemma balanceTradeStage_quantity (fo : List Operation) (b : TcfBalanceItem) :
    (balanceTradeStage fo b).PortfolioQuantity =
      b.PortfolioQuantity + netSignedQuantity (filterOperations fo (some tradeCriteria)) :=
  foldl_applyTrade_quantity _ _

lemma balanceTradeStage_currentPrice (fo : List Operation) (b : TcfBalanceItem) :
    (balanceTradeStage fo b).CurrentPrice = b.CurrentPrice :=
  foldl_applyTrade_currentPrice _ _

lemma clampStage_quantity (b : TcfBalanceItem) :
    (clampStage b).PortfolioQuantity =
      if b.PortfolioQuantity < 0 then 0 else b.PortfolioQuantity := by
  unfold clampStage
  split <;> rfl

lemma clampStage_currentPrice (b : TcfBalanceItem) :
    (clampStage b).CurrentPrice = b.CurrentPrice := by
  unfold clampStage
  split <;> rfl

lemma dividendStage_quantity (fo : List Operation) (b : TcfBalanceItem) :
    (dividendStage fo b).PortfolioQuantity = b.PortfolioQuantity :=
  foldl_applyDividend_quantity _ _

lemma dividendStage_portfolioAmount (fo : List Operation) (b : TcfBalanceItem) :
    (dividendStage fo b).PortfolioAmount = b.PortfolioAmount :=
  foldl_applyDividend_portfolioAmount _ _

lemma dividendTaxStage_quantity (fo : List Operation) (b : TcfBalanceItem) :
    (dividendTaxStage fo b).PortfolioQuantity = b.PortfolioQuantity :=
  foldl_applyDividendTax_quantity _ _

lemma dividendTaxStage_portfolioAmount (fo : List Operation) (b : TcfBalanceItem) :
    (dividendTaxStage fo b).PortfolioAmount = b.PortfolioAmount :=
  foldl_applyDividendTax_portfolioAmount _ _

lemma balanceItemCompute_quantity (figi : String) (operations : List Operation)
    (currentPrice : ℚ) (instrument : SearchInstrument) :
    (balanceItemCompute figi operations currentPrice instrument).PortfolioQuantity =
      if netSignedQuantity (tradeOperations figi operations) < 0 then 0
      else netSignedQuantity (tradeOperations figi operations) := by
  unfold balanceItemCompute
  rw [show ∀ b : TcfBalanceItem, (balanceAmountStage b).PortfolioQuantity = b.PortfolioQuantity
        from fun _ => rfl,
      show ∀ b : TcfBalanceItem, (roundStage b).PortfolioQuantity = b.PortfolioQuantity
        from fun _ => rfl,
      dividendTaxStage_quantity, dividendStage_quantity,
      show ∀ b : TcfBalanceItem, (portfolioAmountStage b).PortfolioQuantity = b.PortfolioQuantity
        from fun _ => rfl,
      clampStage_quantity, balanceTradeStage_quantity]
  norm_num [createBalanceItem, tradeOperations]

lemma balanceItemCompute_portfolioAmount (figi : String) (operations : List Operation)
    (currentPrice : ℚ) (instrument : SearchInstrument) :
    (balanceItemCompute figi operations currentPrice instrument).PortfolioAmount =
      round2 (((if netSignedQuantity (tradeOperations figi operations) < 0 then 0
        else netSignedQuantity (tradeOperations figi operations) : ℤ) : ℚ) * currentPrice) := by
  unfold balanceItemCompute
  rw [show ∀ b : TcfBalanceItem, (balanceAmountStage b).PortfolioAmount = b.PortfolioAmount
        from fun _ => rfl,
      show ∀ b : TcfBalanceItem, (roundStage b).PortfolioAmount = round2 b.PortfolioAmount
        from fun _ => rfl,
      dividendTaxStage_portfolioAmount, dividendStage_portfolioAmount,
      show ∀ b : TcfBalanceItem,
          (portfolioAmountStage b).PortfolioAmount = (b.PortfolioQuantity : ℚ) * b.CurrentPrice
        from fun _ => rfl,
      clampStage_quantity, clampStage_currentPrice, balanceTradeStage_quantity,
      balanceTradeStage_currentPrice]
  norm_num [createBalanceItem, tradeOperations]

/-- Claim C9: the 2-decimal rounding step round2 (math.Round(100*x)/100)
applied to every BalanceLine and CurrencyTotal monetary field is
idempotent: applying it twice equals applying it once. -/
theorem claim_C9 (x : ℚ) : round2 (round2 x) = round2 x :=
  round2_round2 x

/-- Claim C6: filterOperations returns an order-preserving subsequence of
its input whose members satisfy the criteria conjunction, and a nil
(absent) criteria yields the empty list, not all operations. -/
theorem claim_C6 (operations : List Operation) (criteria : filterOperationsCriteria) :
    List.Sublist (filterOperations operations (some criteria)) operations ∧
    (∀ oper, oper ∈ filterOperations operations (some criteria) →
      matchesCriteria criteria oper = true) ∧
    filterOperations operations none = [] := by
  refine ⟨List.filter_sublist operations, ?_, rfl⟩
  intro oper h
  exact (List.mem_filter.mp h).2

/-- Witness for claim C6 at a concrete operation list and criteria. -/
theorem claim_C6_witness :
    List.Sublist (filterOperations [opBuy, opSell] (some tradeCriteria)) [opBuy, opSell] ∧
    matchesCriteria tradeCriteria opBuy = true ∧
    filterOperations [opBuy, opSell] none = [] :=
  ⟨(claim_C6 [opBuy, opSell] tradeCriteria).1,
   (claim_C6 [opBuy, opSell] tradeCriteria).2.1 opBuy (by decide),
   (claim_C6 [opBuy, opSell] tradeCriteria).2.2⟩

/-- Claim C1: in every produced balance item, BalanceAmount is the
2-decimal rounding of PortfolioAmount + DividendAmount -
DividendTaxAmount - OperationAmount - BrokerCommissionAmount, and each of
those five fields is itself already rounded to 2 decimals (a fixed point
of round2). -/
theorem claim_C1 (figi : String) (operations : List Operation) (currentPrice : ℚ)
    (instrument : SearchInstrument) :
    (balanceItemCompute figi operations currentPrice instrument).BalanceAmount =
      round2 ((balanceItemCompute figi operations currentPrice instrument).PortfolioAmount +
        (balanceItemCompute figi operations currentPrice instrument).DividendAmount -
        (balanceItemCompute figi operations currentPrice instrument).DividendTaxAmount -
        (balanceItemCompute figi operations currentPrice instrument).OperationAmount -
        (balanceItemCompute figi operations currentPrice instrument).BrokerCommissionAmount) ∧
    round2 (balanceItemCompute figi operations currentPrice instrument).PortfolioAmount =
      (balanceItemCompute figi operations currentPrice instrument).PortfolioAmount ∧
    round2 (balanceItemCompute figi operations currentPrice instrument).DividendAmount =
      (balanceItemCompute figi operations currentPrice instrument).DividendAmount ∧
    round2 (balanceItemCompute figi operations currentPrice instrument).DividendTaxAmount =
      (balanceItemCompute figi operations currentPrice instrument).DividendTaxAmount ∧
    round2 (balanceItemCompute figi operations currentPrice instrument).OperationAmount =
      (balanceItemCompute figi operations currentPrice instrument).OperationAmount ∧
    round2 (balanceItemCompute figi operations currentPrice instrument).BrokerCommissionAmount =
      (balanceItemCompute figi operations currentPrice instrument).BrokerCommissionAmount := by
  refine ⟨rfl, ?_, ?_, ?_, ?_, ?_⟩ <;>
    exact round2_round2 _

/-- Claim C7: the produced holding quantity is never negative, and when
the net signed quantity of the buy/sell operations is negative the
produced quantity is exactly 0 and the holding value is 0. -/
theorem claim_C7 (figi : String) (operations : List Operation) (currentPrice : ℚ)
    (instrument : SearchInstrument) :
    0 ≤ (balanceItemCompute figi operations currentPrice instrument).PortfolioQuantity ∧
    (netSignedQuantity (tradeOperations figi operations) < 0 →
      (balanceItemCompute figi operations currentPrice instrument).PortfolioQuantity = 0 ∧
      (balanceItemCompute figi operations currentPrice instrument).PortfolioAmount = 0) := by
  constructor
  · rw [balanceItemCompute_quantity]
    split <;> omega
  · intro h
    constructor
    · rw [balanceItemCompute_quantity, if_pos h]
    · rw [balanceItemCompute_portfolioAmount, if_pos h]
      norm_num [round2_zero]

/-- Witness for claim C7: one sell with no matching buy nets to -5 and
the produced quantity and holding value are 0. -/
theorem claim_C7_witness :
    netSignedQuantity (tradeOperations "F1" [opSell]) < 0 ∧
    (balanceItemCompute "F1" [opSell] 10 instr1).PortfolioQuantity = 0 ∧
    (balanceItemCompute "F1" [opSell] 10 instr1).PortfolioAmount = 0 :=
  ⟨by decide,
   ((claim_C7 "F1" [opSell] 10 instr1).2 (by decide)).1,
   ((claim_C7 "F1" [opSell] 10 instr1).2 (by decide)).2⟩

lemma mem_insertTSDesc (c x : Candle) (l : List Candle) :
    x ∈ insertTSDesc c l ↔ x = c ∨ x ∈ l := by
  induction l with
  | nil => simp [insertTSDesc]
  | cons y ys ih =>
    simp only [insertTSDesc]
    split
    · simp [List.mem_cons]
    · simp [List.mem_cons, ih]
      tauto

lemma pairwise_insertTSDesc (c : Candle) (l : List Candle)
    (h : l.Pairwise fun a b => b.TS ≤ a.TS) :
    (insertTSDesc c l).Pairwise fun a b => b.TS ≤ a.TS := by
  induction l with
  | nil => simp [insertTSDesc]
  | cons y ys ih =>
    rcases List.pairwise_cons.mp h with ⟨hy, hys⟩
    simp only [insertTSDesc]
    split
    · rename_i hlt
      refine List.pairwise_cons.mpr ⟨?_, h⟩
      intro x hx
      rcases List.mem_cons.mp hx with rfl | hx'
      · exact le_of_lt hlt
      · exact (hy x hx').trans (le_of_lt hlt)
    · rename_i hnlt
      refine List.pairwise_cons.mpr ⟨?_, ih hys⟩
      intro x hx
      rcases (mem_insertTSDesc c x ys).mp hx with rfl | hx'
      · exact not_lt.mp hnlt
      · exact hy x hx'

lemma mem_sortFold (l : List Candle) (acc : List Candle) (x : Candle) :
    x ∈ l.foldl (fun a c => insertTSDesc c a) acc ↔ x ∈ acc ∨ x ∈ l := by
  induction l generalizing acc with
  | nil => simp
  | cons y ys ih =>
    rw [List.foldl_cons, ih, mem_insertTSDesc]
    simp [List.mem_cons]
    tauto

lemma pairwise_sortFold (l : List Candle) (acc : List Candle)
    (h : acc.Pairwise fun a b => b.TS ≤ a.TS) :
    (l.foldl (fun a c => insertTSDesc c a) acc).Pairwise fun a b => b.TS ≤ a.TS := by
  induction l generalizing acc with
  | nil => exact h
  | cons y ys ih => exact ih _ (pairwise_insertTSDesc y acc h)

lemma sort_head_mem_max (candles : List Candle) (hd : Candle) (tl : List Candle)
    (hs : sortSliceStableTSDesc candles = hd :: tl) :
    hd ∈ candles ∧ ∀ x ∈ candles, x.TS ≤ hd.TS := by
  have hmem : hd ∈ candles := by
    have hm : hd ∈ sortSliceStableTSDesc candles := by
      rw [hs]
      exact List.mem_cons_self _ _
    unfold sortSliceStableTSDesc at hm
    rcases (mem_sortFold candles [] hd).mp hm with h0 | h0
    · cases h0
    · exact h0
  refine ⟨hmem, ?_⟩
  intro x hx
  have hxs : x ∈ sortSliceStableTSDesc candles := by
    unfold sortSliceStableTSDesc
    exact (mem_sortFold candles [] x).mpr (Or.inr hx)
  rw [hs] at hxs
  rcases List.mem_cons.mp hxs with rfl | hx'
  · exact le_refl _
  · have hp : (sortSliceStableTSDesc candles).Pairwise fun a b => b.TS ≤ a.TS := by
      unfold sortSliceStableTSDesc
      exact pairwise_sortFold candles [] (by simp)
    rw [hs] at hp
    exact (List.pairwise_cons.mp hp).1 x hx'

lemma candleLatest_mem_max (candles : List Candle) (c : Candle)
    (h : candleLatest candles = some c) :
    c ∈ candles ∧ ∀ x ∈ candles, x.TS ≤ c.TS := by
  unfold candleLatest at h
  cases hs : sortSliceStableTSDesc candles with
  | nil =>
    rw [hs] at h
    exact absurd h (by simp)
  | cons hd tl =>
    rw [hs] at h
    simp only [Option.some.injEq] at h
    exact h ▸ sort_head_mem_max candles hd tl hs

lemma getCurrentPriceLoop_error (env : CandleRq → Except String (List Candle))
    (figi : String) (rq : CandleRq) (rest : List CandleRq) (last : CandleRq)
    (e : String) (h : env rq = Except.error e) :
    getCurrentPriceLoop env figi (rq :: rest) last = Except.error e := by
  simp [getCurrentPriceLoop, h]

lemma getCurrentPriceLoop_advance (env : CandleRq → Except String (List Candle))
    (figi : String) (rq : CandleRq) (rest : List CandleRq) (last : CandleRq)
    (h : fetchResultAdvances (env rq) = true) :
    getCurrentPriceLoop env figi (rq :: rest) last = getCurrentPriceLoop env figi rest rq := by
  cases henv : env rq with
  | error e =>
    rw [henv] at h
    simp [fetchResultAdvances] at h
  | ok candles =>
    rw [henv] at h
    cases hc : candleLatest candles with
    | none => simp [getCurrentPriceLoop, henv, hc]
    | some c =>
      have hz : c.ClosePrice = 0 := by
        simpa [fetchResultAdvances, hc] using h
      simp [getCurrentPriceLoop, henv, hc, hz]

lemma getCurrentPriceLoop_hit (env : CandleRq → Except String (List Candle))
    (figi : String) (rq : CandleRq) (rest : List CandleRq) (last : CandleRq)
    (candles : List Candle) (c : Candle)
    (henv : env rq = Except.ok candles) (hc : candleLatest candles = some c)
    (hnz : c.ClosePrice ≠ 0) :
    getCurrentPriceLoop env figi (rq :: rest) last = Except.ok c.ClosePrice := by
  simp [getCurrentPriceLoop, henv, hc, hnz]

/-- Claim C4 counterexample: the third window of the fixed sequence uses
DAY granularity, not hour granularity; and with candle data available
only in the third window whose latest candle has a zero close (while an
older candle has the nonzero close 5), the resolver reports the
price-unavailable error instead of returning a nonzero close. -/
theorem claim_C4_counterexample :
    (requests.map fun rq => rq.Interval) =
      [CandleInterval.min1, CandleInterval.hour1, CandleInterval.day1] ∧
    CandleInterval.day1 ≠ CandleInterval.hour1 ∧
    envOnlyDay rqMin = Except.ok [] ∧
    envOnlyDay rqHour = Except.ok [] ∧
    envOnlyDay rqDay = Except.ok [⟨2, 0⟩, ⟨1, 5⟩] ∧
    (⟨1, 5⟩ : Candle) ∈ [(⟨2, 0⟩ : Candle), ⟨1, 5⟩] ∧
    Candle.ClosePrice ⟨1, 5⟩ ≠ 0 ∧
    GetCurrentPrice envOnlyDay "FIGI1" = Except.error (priceUnavailableMsg "FIGI1" rqDay) :=
  ⟨rfl, by decide, rfl, rfl, rfl, by decide, by decide, rfl⟩

/-- Claim C4 (amended): the resolver tries last 60 minutes at minute
granularity, then last 24 hours at hour granularity, then last 7 days at
day granularity; when candle data is available only in the third window
it returns the close price of that window's latest candle (the candle
with the latest timestamp), provided that close is nonzero, without
reporting an error. -/
theorem claim_C4 :
    requests = [rqMin, rqHour, rqDay] ∧
    rqMin = ⟨CandleInterval.min1, -60, 1⟩ ∧
    rqHour = ⟨CandleInterval.hour1, -1440, 60⟩ ∧
    rqDay = ⟨CandleInterval.day1, -10080, 60⟩ ∧
    ∀ (env : CandleRq → Except String (List Candle)) (figi : String)
      (cs : List Candle) (c : Candle),
      env rqMin = Except.ok [] → env rqHour = Except.ok [] → env rqDay = Except.ok cs →
      candleLatest cs = some c → c.ClosePrice ≠ 0 →
      GetCurrentPrice env figi = Except.ok c.ClosePrice ∧
      c ∈ cs ∧ ∀ x ∈ cs, x.TS ≤ c.TS := by
  refine ⟨rfl, rfl, by decide, by decide, ?_⟩
  intro env figi cs c h1 h2 h3 hce hnz
  refine ⟨?_, (candleLatest_mem_max cs c hce).1, (candleLatest_mem_max cs c hce).2⟩
  show getCurrentPriceLoop env figi [rqMin, rqHour, rqDay] ⟨CandleInterval.min1, 0, 0⟩ =
    Except.ok c.ClosePrice
  rw [getCurrentPriceLoop_advance env figi rqMin _ _ (by rw [h1]; rfl),
      getCurrentPriceLoop_advance env figi rqHour _ _ (by rw [h2]; rfl)]
  exact getCurrentPriceLoop_hit env figi rqDay [] rqHour cs c h3 hce hnz

/-- Witness for claim C4 at a concrete environment with data only in the
third window and a nonzero latest close. -/
theorem claim_C4_witness :
    envDayGood rqMin = Except.ok [] ∧
    candleLatest [(⟨2, 7⟩ : Candle), ⟨1, 5⟩] = some ⟨2, 7⟩ ∧
    GetCurrentPrice envDayGood "F1" = Except.ok 7 ∧
    (⟨2, 7⟩ : Candle) ∈ [(⟨2, 7⟩ : Candle), ⟨1, 5⟩] := by
  have h := claim_C4.2.2.2.2 envDayGood "F1" [⟨2, 7⟩, ⟨1, 5⟩] ⟨2, 7⟩ rfl rfl rfl
    (by decide) (by decide)
  exact ⟨rfl, by decide, h.1, h.2.1⟩

/-- Claim C5 counterexample: the first window returns a non-empty result
that is not all-zero-close (an older candle closes at 5), yet the
resolver advances to the second window, whose hard fetch failure it then
propagates; and on full exhaustion the error is built from the LAST
window only. -/
theorem claim_C5_counterexample :
    envZeroLatestThenFailure rqMin = Except.ok [⟨2, 0⟩, ⟨1, 5⟩] ∧
    (⟨1, 5⟩ : Candle) ∈ [(⟨2, 0⟩ : Candle), ⟨1, 5⟩] ∧
    Candle.ClosePrice ⟨1, 5⟩ ≠ 0 ∧
    envZeroLatestThenFailure rqHour = Except.error "boom" ∧
    GetCurrentPrice envZeroLatestThenFailure "F" = Except.error "boom" ∧
    GetCurrentPrice envAllEmpty "F" = Except.error (priceUnavailableMsg "F" rqDay) :=
  ⟨rfl, by decide, by decide, rfl, rfl, rfl⟩

/-- Claim C5 (amended): a hard candle-fetch error aborts resolution
immediately at whichever window it occurs and is propagated (only a
result that is empty or whose latest candle has a zero close advances to
the next window); when every window advances, the resolver fails with
the price-unavailable error naming the instrument and the last window
tried. -/
theorem claim_C5 (env : CandleRq → Except String (List Candle)) (figi : String) (e : String) :
    (env rqMin = Except.error e → GetCurrentPrice env figi = Except.error e) ∧
    (fetchResultAdvances (env rqMin) = true → env rqHour = Except.error e →
      GetCurrentPrice env figi = Except.error e) ∧
    (fetchResultAdvances (env rqMin) = true → fetchResultAdvances (env rqHour) = true →
      env rqDay = Except.error e → GetCurrentPrice env figi = Except.error e) ∧
    (fetchResultAdvances (env rqMin) = true → fetchResultAdvances (env rqHour) = true →
      fetchResultAdvances (env rqDay) = true →
      GetCurrentPrice env figi = Except.error (priceUnavailableMsg figi rqDay)) := by
  refine ⟨?_, ?_, ?_, ?_⟩
  · intro h1
    exact getCurrentPriceLoop_error env figi rqMin _ _ e h1
  · intro ha1 h2
    show getCurrentPriceLoop env figi [rqMin, rqHour, rqDay] ⟨CandleInterval.min1, 0, 0⟩ = _
    rw [getCurrentPriceLoop_advance env figi rqMin _ _ ha1]
    exact getCurrentPriceLoop_error env figi rqHour _ _ e h2
  · intro ha1 ha2 h3
    show getCurrentPriceLoop env figi [rqMin, rqHour, rqDay] ⟨CandleInterval.min1, 0, 0⟩ = _
    rw [getCurrentPriceLoop_advance env figi rqMin _ _ ha1,
        getCurrentPriceLoop_advance env figi rqHour _ _ ha2]
    exact getCurrentPriceLoop_error env figi rqDay _ _ e h3
  · intro ha1 ha2 ha3
    show getCurrentPriceLoop env figi [rqMin, rqHour, rqDay] ⟨CandleInterval.min1, 0, 0⟩ = _
    rw [getCurrentPriceLoop_advance env figi rqMin _ _ ha1,
        getCurrentPriceLoop_advance env figi rqHour _ _ ha2,
        getCurrentPriceLoop_advance env figi rqDay _ _ ha3]
    rfl

/-- Witness for claim C5: the first window advances (zero latest close)
and the second window's hard failure is propagated. -/
theorem claim_C5_witness :
    fetchResultAdvances (envZeroLatestThenFailure rqMin) = true ∧
    envZeroLatestThenFailure rqHour = Except.error "boom" ∧
    GetCurrentPrice envZeroLatestThenFailure "F" = Except.error "boom" :=
  ⟨by decide, rfl,
   (claim_C5 envZeroLatestThenFailure "F" "boom").2.1 (by decide) rfl⟩

lemma updateCurrency_same (m : String → Option TcfTotal) (cur : String) (t : TcfTotal) :
    updateCurrency m cur t cur = some t := by
  simp [updateCurrency]

lemma updateCurrency_other (m : String → Option TcfTotal) (cur : String) (t : TcfTotal)
    (c : String) (h : c ≠ cur) : updateCurrency m cur t c = m c := by
  simp [updateCurrency, h]

lemma updateCurrency_isSome (m : String → Option TcfTotal) (cur : String) (t : TcfTotal)
    (h : (m cur).isSome = true) (c : String) :
    (updateCurrency m cur t c).isSome = (m c).isSome := by
  unfold updateCurrency
  split
  · rename_i hc
    subst hc
    simp [h]
  · rfl

lemma applyItem_none (bal : TcfPortfolioBalance) (b : TcfBalanceItem)
    (h : bal.Total.Currencies b.Currency = none) : applyItem bal b = none := by
  unfold applyItem
  rw [h]

lemma applyItem_eq (bal : TcfPortfolioBalance) (b : TcfBalanceItem) (t : TcfTotal)
    (h : bal.Total.Currencies b.Currency = some t) :
    ∃ bal1, applyItem bal b = some bal1 ∧
      bal1.Items = bal.Items ++ [b] ∧
      bal1.Total.Currencies = updateCurrency bal.Total.Currencies b.Currency
        ⟨t.BalanceAmount + b.BalanceAmount, t.ServiceCommissionAmount,
         t.TaxBack, t.PortfolioAmount + b.PortfolioAmount⟩ := by
  refine ⟨{ Items := bal.Items ++ [b],
            Total := ⟨updateCurrency bal.Total.Currencies b.Currency
              ⟨t.BalanceAmount + b.BalanceAmount, t.ServiceCommissionAmount,
               t.TaxBack, t.PortfolioAmount + b.PortfolioAmount⟩⟩ }, ?_, rfl, rfl⟩
  unfold applyItem
  rw [h]

lemma applyServiceCommission_none (bal : TcfPortfolioBalance) (oper : Operation)
    (h : bal.Total.Currencies oper.Currency = none) :
    applyServiceCommission bal oper = none := by
  unfold applyServiceCommission
  rw [h]

lemma applyServiceCommission_eq (bal : TcfPortfolioBalance) (oper : Operation) (t : TcfTotal)
    (h : bal.Total.Currencies oper.Currency = some t) :
    ∃ bal1, applyServiceCommission bal oper = some bal1 ∧
      bal1.Items = bal.Items ∧
      bal1.Total.Currencies = updateCurrency bal.Total.Currencies oper.Currency
        ⟨t.BalanceAmount - |oper.Payment|, t.ServiceCommissionAmount + |oper.Payment|,
         t.TaxBack, t.PortfolioAmount⟩ := by
  refine ⟨{ Items := bal.Items,
            Total := ⟨updateCurrency bal.Total.Currencies oper.Currency
              ⟨t.BalanceAmount - |oper.Payment|, t.ServiceCommissionAmount + |oper.Payment|,
               t.TaxBack, t.PortfolioAmount⟩⟩ }, ?_, rfl, rfl⟩
  unfold applyServiceCommission
  rw [h]

lemma applyTaxBack_none (bal : TcfPortfolioBalance) (oper : Operation)
    (h : bal.Total.Currencies oper.Currency = none) :
    applyTaxBack bal oper = none := by
  unfold applyTaxBack
  rw [h]

lemma applyTaxBack_eq (bal : TcfPortfolioBalance) (oper : Operation) (t : TcfTotal)
    (h : bal.Total.Currencies oper.Currency = some t) :
    ∃ bal1, applyTaxBack bal oper = some bal1 ∧
      bal1.Items = bal.Items ∧
      bal1.Total.Currencies = updateCurrency bal.Total.Currencies oper.Currency
        ⟨t.BalanceAmount + |oper.Payment|, t.ServiceCommissionAmount,
         t.TaxBack + |oper.Payment|, t.PortfolioAmount⟩ := by
  refine ⟨{ Items := bal.Items,
            Total := ⟨updateCurrency bal.Total.Currencies oper.Currency
              ⟨t.BalanceAmount + |oper.Payment|, t.ServiceCommissionAmount,
               t.TaxBack + |oper.Payment|, t.PortfolioAmount⟩⟩ }, ?_, rfl, rfl⟩
  unfold applyTaxBack
  rw [h]

lemma itemsBalanceSum_cons (c : String) (b : TcfBalanceItem) (items : List TcfBalanceItem) :
    itemsBalanceSum c (b :: items) =
      (if b.Currency = c then b.BalanceAmount else 0) + itemsBalanceSum c items := by
  simp [itemsBalanceSum]

lemma itemsPortfolioSum_cons (c : String) (b : TcfBalanceItem) (items : List TcfBalanceItem) :
    itemsPortfolioSum c (b :: items) =
      (if b.Currency = c then b.PortfolioAmount else 0) + itemsPortfolioSum c items := by
  simp [itemsPortfolioSum]

lemma absPaySum_cons (c : String) (oper : Operation) (l : List Operation) :
    absPaySum c (oper :: l) =
      (if oper.Currency = c then |oper.Payment| else 0) + absPaySum c l := by
  simp [absPaySum]

lemma allSeededItems_cons (dom : String → Bool) (a : Arrival) (l : List Arrival) :
    allSeededItems dom (a :: l) =
      ((match a.msg with
        | ChMsg.item b => dom b.Currency
        | ChMsg.fail _ => false) && allSeededItems dom l) := by
  simp [allSeededItems]

lemma timely_cons (now : ℚ) (a : Arrival) (l : List Arrival) :
    timely now (a :: l) = (decide (a.time ≤ now + 20) && timely a.time l) := rfl

lemma collectLoop_ok (n : ℕ) (now : ℚ) (arrivals : List Arrival)
    (bal bal' : TcfPortfolioBalance)
    (h : collectLoop n now arrivals bal = RunResult.ok bal') :
    ∃ newItems : List TcfBalanceItem,
      bal'.Items = bal.Items ++ newItems ∧
      ∀ c, bal'.Total.Currencies c = (bal.Total.Currencies c).map fun t =>
        ⟨t.BalanceAmount + itemsBalanceSum c newItems,
         t.ServiceCommissionAmount, t.TaxBack,
         t.PortfolioAmount + itemsPortfolioSum c newItems⟩ := by
  induction n generalizing now arrivals bal with
  | zero =>
    have h' : RunResult.ok bal = RunResult.ok (α := TcfPortfolioBalance) bal' := h
    injection h' with hb
    subst hb
    refine ⟨[], by simp, ?_⟩
    intro c
    cases ht : bal.Total.Currencies c with
    | none => rfl
    | some t => simp [itemsBalanceSum, itemsPortfolioSum]
  | succ m ih =>
    cases arrivals with
    | nil => exact absurd h (by simp [collectLoop])
    | cons a rest =>
      obtain ⟨ta, amsg⟩ := a
      simp only [collectLoop] at h
      by_cases hlate : now + 20 < ta
      · rw [if_pos hlate] at h
        exact (RunResult.noConfusion h)
      · rw [if_neg hlate] at h
        cases amsg with
        | fail e =>
          simp at h
        | item b =>
          dsimp only at h
          cases hl : bal.Total.Currencies b.Currency with
          | none =>
            rw [applyItem_none bal b hl] at h
            simp at h
          | some t =>
            obtain ⟨bal1, hone, hIt1, hCur1⟩ := applyItem_eq bal b t hl
            rw [hone] at h
            have h' : collectLoop m ta rest bal1 = RunResult.ok bal' := h
            obtain ⟨new1, hIt, hC⟩ := ih ta rest bal1 h'
            refine ⟨b :: new1, ?_, ?_⟩
            · rw [hIt, hIt1]
              simp
            · intro c
              rw [hC c, hCur1]
              by_cases hc : c = b.Currency
              · subst hc
                rw [updateCurrency_same, hl]
                simp only [Option.map_some', Option.some.injEq, TcfTotal.mk.injEq,
                  itemsBalanceSum_cons, itemsPortfolioSum_cons, eq_self_iff_true, if_true]
                refine ⟨by ring, trivial, trivial, by ring⟩
              · rw [updateCurrency_other _ _ _ _ hc]
                have hcb : b.Currency ≠ c := fun hh => hc hh.symm
                cases bal.Total.Currencies c with
                | none => rfl
                | some t0 =>
                  simp [itemsBalanceSum_cons, itemsPortfolioSum_cons, hcb]

lemma arrivalsSeeded_cons (dom : String → Bool) (a : Arrival) (l : List Arrival) :
    arrivalsSeeded dom (a :: l) =
      ((match a.msg with
        | ChMsg.item b => dom b.Currency
        | ChMsg.fail _ => true) && arrivalsSeeded dom l) := by
  simp [arrivalsSeeded]

lemma opsSeededIn_cons (dom : String → Bool) (oper : Operation) (l : List Operation) :
    opsSeededIn dom (oper :: l) = (dom oper.Currency && opsSeededIn dom l) := by
  simp [opsSeededIn]

lemma runAdjustments_svc (l : List Operation) (bal bal' : TcfPortfolioBalance)
    (h : runAdjustments applyServiceCommission bal l = some bal') :
    bal'.Items = bal.Items ∧
    ∀ c, bal'.Total.Currencies c = (bal.Total.Currencies c).map fun t =>
      ⟨t.BalanceAmount - absPaySum c l, t.ServiceCommissionAmount + absPaySum c l,
       t.TaxBack, t.PortfolioAmount⟩ := by
  induction l generalizing bal with
  | nil =>
    have h' : (some bal : Option TcfPortfolioBalance) = some bal' := h
    injection h' with hb
    subst hb
    refine ⟨rfl, ?_⟩
    intro c
    cases bal.Total.Currencies c with
    | none => rfl
    | some t => simp [absPaySum]
  | cons op ops ih =>
    simp only [runAdjustments] at h
    cases hl : bal.Total.Currencies op.Currency with
    | none =>
      rw [applyServiceCommission_none bal op hl] at h
      simp at h
    | some t =>
      obtain ⟨bal1, hone, hIt1, hCur1⟩ := applyServiceCommission_eq bal op t hl
      rw [hone] at h
      have h' : runAdjustments applyServiceCommission bal1 ops = some bal' := h
      obtain ⟨hIt, hC⟩ := ih bal1 h'
      refine ⟨by rw [hIt, hIt1], ?_⟩
      intro c
      rw [hC c, hCur1]
      by_cases hc : c = op.Currency
      · subst hc
        rw [updateCurrency_same, hl]
        simp only [Option.map_some', Option.some.injEq, TcfTotal.mk.injEq,
          absPaySum_cons, eq_self_iff_true, if_true]
        refine ⟨by ring, by ring, by trivial, by trivial⟩
      · rw [updateCurrency_other _ _ _ _ hc]
        have hcb : op.Currency ≠ c := fun hh => hc hh.symm
        cases bal.Total.Currencies c with
        | none => rfl
        | some t0 => simp [absPaySum_cons, hcb]

lemma runAdjustments_tax (l : List Operation) (bal bal' : TcfPortfolioBalance)
    (h : runAdjustments applyTaxBack bal l = some bal') :
    bal'.Items = bal.Items ∧
    ∀ c, bal'.Total.Currencies c = (bal.Total.Currencies c).map fun t =>
      ⟨t.BalanceAmount + absPaySum c l, t.ServiceCommissionAmount,
       t.TaxBack + absPaySum c l, t.PortfolioAmount⟩ := by
  induction l generalizing bal with
  | nil =>
    have h' : (some bal : Option TcfPortfolioBalance) = some bal' := h
    injection h' with hb
    subst hb
    refine ⟨rfl, ?_⟩
    intro c
    cases bal.Total.Currencies c with
    | none => rfl
    | some t => simp [absPaySum]
  | cons op ops ih =>
    simp only [runAdjustments] at h
    cases hl : bal.Total.Currencies op.Currency with
    | none =>
      rw [applyTaxBack_none bal op hl] at h
      simp at h
    | some t =>
      obtain ⟨bal1, hone, hIt1, hCur1⟩ := applyTaxBack_eq bal op t hl
      rw [hone] at h
      have h' : runAdjustments applyTaxBack bal1 ops = some bal' := h
      obtain ⟨hIt, hC⟩ := ih bal1 h'
      refine ⟨by rw [hIt, hIt1], ?_⟩
      intro c
      rw [hC c, hCur1]
      by_cases hc : c = op.Currency
      · subst hc
        rw [updateCurrency_same, hl]
        simp only [Option.map_some', Option.some.injEq, TcfTotal.mk.injEq,
          absPaySum_cons, eq_self_iff_true, if_true]
        refine ⟨by ring, by trivial, by ring, by trivial⟩
      · rw [updateCurrency_other _ _ _ _ hc]
        have hcb : op.Currency ≠ c := fun hh => hc hh.symm
        cases bal.Total.Currencies c with
        | none => rfl
        | some t0 => simp [absPaySum_cons, hcb]

lemma collectLoop_not_panic (n : ℕ) (now : ℚ) (arrivals : List Arrival)
    (bal : TcfPortfolioBalance)
    (hseed : arrivalsSeeded (seededDom bal) arrivals = true) :
    collectLoop n now arrivals bal ≠ RunResult.panicNilMap := by
  induction n generalizing now arrivals bal with
  | zero => simp [collectLoop]
  | succ m ih =>
    cases arrivals with
    | nil => simp [collectLoop]
    | cons a rest =>
      rw [arrivalsSeeded_cons, Bool.and_eq_true] at hseed
      obtain ⟨hhead, htail⟩ := hseed
      simp only [collectLoop]
      by_cases hlate : now + 20 < a.time
      · rw [if_pos hlate]
        simp
      · rw [if_neg hlate]
        cases hm : a.msg with
        | fail e => simp [hm]
        | item b =>
          rw [hm] at hhead
          have hsome : (bal.Total.Currencies b.Currency).isSome = true := hhead
          obtain ⟨t, hl⟩ := Option.isSome_iff_exists.mp hsome
          obtain ⟨bal1, hone, hIt1, hCur1⟩ := applyItem_eq bal b t hl
          simp only [hm, hone]
          have hdom : seededDom bal1 = seededDom bal := funext fun c => by
            unfold seededDom
            rw [hCur1]
            exact updateCurrency_isSome _ _ _ (by rw [hl]; rfl) c
          exact ih a.time rest bal1 (by rw [hdom]; exact htail)

lemma runAdjustments_svc_some (l : List Operation) (bal : TcfPortfolioBalance)
    (hseed : opsSeededIn (seededDom bal) l = true) :
    runAdjustments applyServiceCommission bal l ≠ none := by
  induction l generalizing bal with
  | nil => simp [runAdjustments]
  | cons op ops ih =>
    rw [opsSeededIn_cons, Bool.and_eq_true] at hseed
    obtain ⟨h1, h2⟩ := hseed
    obtain ⟨t, hl⟩ := Option.isSome_iff_exists.mp h1
    obtain ⟨bal1, hone, hIt1, hCur1⟩ := applyServiceCommission_eq bal op t hl
    simp only [runAdjustments, hone]
    have hdom : seededDom bal1 = seededDom bal := funext fun c => by
      unfold seededDom
      rw [hCur1]
      exact updateCurrency_isSome _ _ _ (by rw [hl]; rfl) c
    exact ih bal1 (by rw [hdom]; exact h2)

lemma runAdjustments_tax_some (l : List Operation) (bal : TcfPortfolioBalance)
    (hseed : opsSeededIn (seededDom bal) l = true) :
    runAdjustments applyTaxBack bal l ≠ none := by
  induction l generalizing bal with
  | nil => simp [runAdjustments]
  | cons op ops ih =>
    rw [opsSeededIn_cons, Bool.and_eq_true] at hseed
    obtain ⟨h1, h2⟩ := hseed
    obtain ⟨t, hl⟩ := Option.isSome_iff_exists.mp h1
    obtain ⟨bal1, hone, hIt1, hCur1⟩ := applyTaxBack_eq bal op t hl
    simp only [runAdjustments, hone]
    have hdom : seededDom bal1 = seededDom bal := funext fun c => by
      unfold seededDom
      rw [hCur1]
      exact updateCurrency_isSome _ _ _ (by rw [hl]; rfl) c
    exact ih bal1 (by rw [hdom]; exact h2)

lemma createEmptyBalance_entry (c : String) (t : TcfTotal)
    (h : createEmptyBalance.Total.Currencies c = some t) : t = ⟨0, 0, 0, 0⟩ := by
  simp only [createEmptyBalance] at h
  split at h
  · exact (Option.some.inj h).symm
  · split at h
    · exact (Option.some.inj h).symm
    · split at h
      · exact (Option.some.inj h).symm
      · exact Option.noConfusion h

/-- Claim C2: once the arrivals consumed so far are balance items (with
seeded currencies, delivered within each 20-second wait), the first error
completion received makes the collection loop return exactly that error:
the already-collected items are discarded and no balance object is
returned. -/
theorem claim_C2 (n : ℕ) (now tf : ℚ) (pre rest : List Arrival) (e : String)
    (bal : TcfPortfolioBalance)
    (hn : pre.length < n)
    (hseed : allSeededItems (seededDom bal) pre = true)
    (htime : timely now (pre ++ [⟨tf, ChMsg.fail e⟩]) = true) :
    collectLoop n now (pre ++ ⟨tf, ChMsg.fail e⟩ :: rest) bal = RunResult.err e := by
  induction pre generalizing n now bal with
  | nil =>
    cases n with
    | zero => exact absurd hn (Nat.not_lt_zero _)
    | succ m =>
      have ht : tf ≤ now + 20 := by
        rw [List.nil_append, timely_cons, Bool.and_eq_true] at htime
        exact of_decide_eq_true htime.1
      simp only [List.nil_append, collectLoop]
      rw [if_neg (not_lt.mpr ht)]
  | cons a pre' ih =>
    cases n with
    | zero => exact absurd hn (Nat.not_lt_zero _)
    | succ m =>
      rw [allSeededItems_cons, Bool.and_eq_true] at hseed
      obtain ⟨hhead, htail⟩ := hseed
      rw [List.cons_append, timely_cons, Bool.and_eq_true] at htime
      obtain ⟨hta, httail⟩ := htime
      have hta' : a.time ≤ now + 20 := of_decide_eq_true hta
      cases hm : a.msg with
      | fail e2 =>
        rw [hm] at hhead
        simp at hhead
      | item b =>
        rw [hm] at hhead
        have hsome : (bal.Total.Currencies b.Currency).isSome = true := hhead
        obtain ⟨t, hl⟩ := Option.isSome_iff_exists.mp hsome
        obtain ⟨bal1, hone, hIt1, hCur1⟩ := applyItem_eq bal b t hl
        rw [List.cons_append]
        simp only [collectLoop]
        rw [if_neg (not_lt.mpr hta')]
        simp only [hm, hone]
        have hdom : seededDom bal1 = seededDom bal := funext fun c => by
          unfold seededDom
          rw [hCur1]
          exact updateCurrency_isSome _ _ _ (by rw [hl]; rfl) c
        exact ih m a.time bal1 (Nat.lt_of_succ_lt_succ hn)
          (by rw [hdom]; exact htail) httail

/-- Witness for claim C2: one launched computation whose only completion
is an error at instant 10. -/
theorem claim_C2_witness :
    ([] : List Arrival).length < 1 ∧
    allSeededItems (seededDom createEmptyBalance) [] = true ∧
    timely 0 ([] ++ [⟨10, ChMsg.fail "E"⟩]) = true ∧
    collectLoop 1 0 ([] ++ ⟨10, ChMsg.fail "E"⟩ :: []) createEmptyBalance =
      RunResult.err "E" :=
  ⟨by decide, rfl, by norm_num [timely, Bool.and_eq_true],
   claim_C2 1 0 10 [] [] "E" createEmptyBalance (by decide) rfl
     (by norm_num [timely, Bool.and_eq_true])⟩

/-- Claim C8 counterexample: two completions arrive at instants 15 and 30;
the second is more than 20 seconds after the start of collection, yet the
loop succeeds (each select waits on a FRESH 20-second timer), so the
timeout is not a single global deadline measured from the start of
collection. -/
theorem claim_C8_counterexample :
    (0 : ℚ) + 20 < 30 ∧
    (collectLoop 2 0 [⟨15, ChMsg.item itemUSD⟩, ⟨30, ChMsg.item itemUSD2⟩]
      createEmptyBalance).isOk = true := by
  constructor
  · norm_num
  · simp only [collectLoop]
    rw [if_neg (by norm_num : ¬ (0 : ℚ) + 20 < 15)]
    obtain ⟨bal1, hone1, hIt1, hCur1⟩ :=
      applyItem_eq createEmptyBalance itemUSD ⟨0, 0, 0, 0⟩ (by decide)
    simp only [hone1, collectLoop]
    rw [if_neg (by norm_num : ¬ (15 : ℚ) + 20 < 30)]
    have hl2 : bal1.Total.Currencies itemUSD2.Currency =
        some ⟨0 + itemUSD.BalanceAmount, 0, 0, 0 + itemUSD.PortfolioAmount⟩ := by
      rw [hCur1]
      exact updateCurrency_same _ _ _
    obtain ⟨bal2, hone2, hIt2, hCur2⟩ := applyItem_eq bal1 itemUSD2 _ hl2
    simp only [hone2, collectLoop]
    rfl

/-- Claim C8 (amended): each iteration of the collection loop waits at
most 20 seconds for the next completion, measured from the previous
consumption (from the start of collection for the first); if, while
completions are still outstanding, the next one arrives more than 20
seconds after the previous, the loop returns the generic "Timeout error"
and the caller receives no result. -/
theorem claim_C8 (n : ℕ) (now tl : ℚ) (pre rest : List Arrival) (msg : ChMsg)
    (bal : TcfPortfolioBalance)
    (hn : pre.length < n)
    (hseed : allSeededItems (seededDom bal) pre = true)
    (htime : timely now pre = true)
    (hlate : lastTime now pre + 20 < tl) :
    collectLoop n now (pre ++ ⟨tl, msg⟩ :: rest) bal = RunResult.err "Timeout error" := by
  induction pre generalizing n now bal with
  | nil =>
    cases n with
    | zero => exact absurd hn (Nat.not_lt_zero _)
    | succ m =>
      simp only [List.nil_append, collectLoop]
      rw [if_pos (show now + 20 < tl from hlate)]
  | cons a pre' ih =>
    cases n with
    | zero => exact absurd hn (Nat.not_lt_zero _)
    | succ m =>
      rw [allSeededItems_cons, Bool.and_eq_true] at hseed
      obtain ⟨hhead, htail⟩ := hseed
      rw [timely_cons, Bool.and_eq_true] at htime
      obtain ⟨hta, httail⟩ := htime
      have hta' : a.time ≤ now + 20 := of_decide_eq_true hta
      cases hm : a.msg with
      | fail e2 =>
        rw [hm] at hhead
        simp at hhead
      | item b =>
        rw [hm] at hhead
        have hsome : (bal.Total.Currencies b.Currency).isSome = true := hhead
        obtain ⟨t, hl⟩ := Option.isSome_iff_exists.mp hsome
        obtain ⟨bal1, hone, hIt1, hCur1⟩ := applyItem_eq bal b t hl
        rw [List.cons_append]
        simp only [collectLoop]
        rw [if_neg (not_lt.mpr hta')]
        simp only [hm, hone]
        have hdom : seededDom bal1 = seededDom bal := funext fun c => by
          unfold seededDom
          rw [hCur1]
          exact updateCurrency_isSome _ _ _ (by rw [hl]; rfl) c
        exact ih m a.time bal1 (Nat.lt_of_succ_lt_succ hn)
          (by rw [hdom]; exact htail) httail (show lastTime a.time pre' + 20 < tl from hlate)

/-- Witness for claim C8: with no completion consumed yet, an arrival at
instant 21 is past the 20-second wait and the loop times out. -/
theorem claim_C8_witness :
    ([] : List Arrival).length < 1 ∧
    lastTime 0 [] + 20 < 21 ∧
    collectLoop 1 0 ([] ++ ⟨21, ChMsg.item itemUSD⟩ :: []) createEmptyBalance =
      RunResult.err "Timeout error" :=
  ⟨by decide, by norm_num [lastTime],
   claim_C8 1 0 21 [] [] (ChMsg.item itemUSD) createEmptyBalance (by decide) rfl rfl
     (by norm_num [lastTime])⟩

/-- Claim C3: when the aggregation returns a balance, the totals entry of
every currency holds exactly round2(sum of the BalanceAmount of that
currency's balance lines - service commission absolute payments + tax
back absolute payments), rounded once at the end; the service commission
and tax back fields accumulate those same absolute payments. -/
theorem claim_C3 (operations : List Operation) (n : ℕ) (start : ℚ)
    (arrivals : List Arrival) (final : TcfPortfolioBalance) (c : String) (t : TcfTotal)
    (hrun : aggregateBalance operations n start arrivals = RunResult.ok final)
    (hc : final.Total.Currencies c = some t) :
    t.BalanceAmount = round2 (itemsBalanceSum c final.Items -
      absPaySum c (svcOps operations) + absPaySum c (taxBackOps operations)) ∧
    t.ServiceCommissionAmount = round2 (absPaySum c (svcOps operations)) ∧
    t.TaxBack = round2 (absPaySum c (taxBackOps operations)) := by
  unfold aggregateBalance at hrun
  cases hcoll : collectLoop n start arrivals createEmptyBalance with
  | err e =>
    rw [hcoll] at hrun
    simp at hrun
  | panicNilMap =>
    rw [hcoll] at hrun
    simp at hrun
  | ok bal1 =>
    rw [hcoll] at hrun
    dsimp only at hrun
    cases hsvc : runAdjustments applyServiceCommission bal1 (svcOps operations) with
    | none =>
      rw [hsvc] at hrun
      simp at hrun
    | some bal2 =>
      rw [hsvc] at hrun
      dsimp only at hrun
      cases htax : runAdjustments applyTaxBack bal2 (taxBackOps operations) with
      | none =>
        rw [htax] at hrun
        simp at hrun
      | some bal3 =>
        rw [htax] at hrun
        dsimp only at hrun
        injection hrun with hfin
        subst hfin
        have hc' : (bal3.Total.Currencies c).map roundTotal = some t := hc
        obtain ⟨t3, hl3, ht3⟩ := Option.map_eq_some'.mp hc'
        obtain ⟨new, hIt1, hC1⟩ := collectLoop_ok n start arrivals createEmptyBalance bal1 hcoll
        obtain ⟨hIt2, hC2⟩ := runAdjustments_svc (svcOps operations) bal1 bal2 hsvc
        obtain ⟨hIt3, hC3⟩ := runAdjustments_tax (taxBackOps operations) bal2 bal3 htax
        rw [hC3 c, hC2 c, hC1 c] at hl3
        cases hce : createEmptyBalance.Total.Currencies c with
        | none =>
          rw [hce] at hl3
          simp at hl3
        | some t0 =>
          rw [hce] at hl3
          simp only [Option.map_some', Option.some.injEq] at hl3
          have ht0 := createEmptyBalance_entry c t0 hce
          subst ht0
          have hItems : (roundTotals bal3).Items = new := by
            show bal3.Items = new
            rw [hIt3, hIt2, hIt1]
            simp [createEmptyBalance]
          rw [hItems]
          subst ht3
          rw [← hl3]
          refine ⟨?_, ?_, ?_⟩
          · show round2 (0 + itemsBalanceSum c new - absPaySum c (svcOps operations) +
              absPaySum c (taxBackOps operations)) = round2 (itemsBalanceSum c new -
              absPaySum c (svcOps operations) + absPaySum c (taxBackOps operations))
            congr 1
            ring
          · show round2 (0 + absPaySum c (svcOps operations)) =
              round2 (absPaySum c (svcOps operations))
            congr 1
            ring
          · show round2 (0 + absPaySum c (taxBackOps operations)) =
              round2 (absPaySum c (taxBackOps operations))
            congr 1
            ring

/-- Witness for claim C3 at a run with no launched computations and no
operations: the seeded USD entry totals to round2 of empty sums, 0. -/
theorem claim_C3_witness :
    aggregateBalance [] 0 0 [] = RunResult.ok (roundTotals createEmptyBalance) ∧
    (roundTotals createEmptyBalance).Total.Currencies "USD" = some ⟨0, 0, 0, 0⟩ ∧
    (TcfTotal.mk 0 0 0 0).BalanceAmount =
      round2 (itemsBalanceSum "USD" (roundTotals createEmptyBalance).Items -
        absPaySum "USD" (svcOps []) + absPaySum "USD" (taxBackOps [])) := by
  have h1 : aggregateBalance [] 0 0 [] = RunResult.ok (roundTotals createEmptyBalance) := rfl
  have h0 : createEmptyBalance.Total.Currencies "USD" = some ⟨0, 0, 0, 0⟩ := by decide
  have h2 : (roundTotals createEmptyBalance).Total.Currencies "USD" = some ⟨0, 0, 0, 0⟩ := by
    show (createEmptyBalance.Total.Currencies "USD").map roundTotal = some ⟨0, 0, 0, 0⟩
    rw [h0]
    simp [roundTotal, round2_zero]
  exact ⟨h1, h2,
    (claim_C3 [] 0 0 [] (roundTotals createEmptyBalance) "USD" ⟨0, 0, 0, 0⟩ h1 h2).1⟩

/-- Claim C10: the totals map is seeded with exactly RUB, USD and EUR (all
fields zero); every totals update dereferences the entry of the
balance line's or operation's currency without a presence check, so a
currency outside the seeded three makes the update undefined (the
nil-map-entry panic); and when every item and adjustment currency is
seeded the aggregation never reaches that undefined branch. -/
theorem claim_C10 :
    (∀ c : String, (c = "RUB" ∨ c = "USD" ∨ c = "EUR") →
      createEmptyBalance.Total.Currencies c = some ⟨0, 0, 0, 0⟩) ∧
    (∀ c : String, ¬(c = "RUB" ∨ c = "USD" ∨ c = "EUR") →
      createEmptyBalance.Total.Currencies c = none) ∧
    (∀ (bal : TcfPortfolioBalance) (b : TcfBalanceItem),
      bal.Total.Currencies b.Currency = none → applyItem bal b = none) ∧
    (∀ (bal : TcfPortfolioBalance) (oper : Operation),
      bal.Total.Currencies oper.Currency = none → applyServiceCommission bal oper = none) ∧
    (∀ (bal : TcfPortfolioBalance) (oper : Operation),
      bal.Total.Currencies oper.Currency = none → applyTaxBack bal oper = none) ∧
    (∀ (operations : List Operation) (n : ℕ) (start : ℚ) (arrivals : List Arrival),
      arrivalsSeeded (seededDom createEmptyBalance) arrivals = true →
      opsSeededIn (seededDom createEmptyBalance) (svcOps operations) = true →
      opsSeededIn (seededDom createEmptyBalance) (taxBackOps operations) = true →
      aggregateBalance operations n start arrivals ≠ RunResult.panicNilMap) := by
  refine ⟨?_, ?_, applyItem_none, applyServiceCommission_none, applyTaxBack_none, ?_⟩
  · intro c h
    rcases h with rfl | rfl | rfl <;> decide
  · intro c h
    push_neg at h
    obtain ⟨h1, h2, h3⟩ := h
    simp only [createEmptyBalance]
    rw [if_neg h1, if_neg h2, if_neg h3]
  · intro operations n start arrivals hA hS hT hcontra
    unfold aggregateBalance at hcontra
    cases hcoll : collectLoop n start arrivals createEmptyBalance with
    | err e =>
      rw [hcoll] at hcontra
      simp at hcontra
    | panicNilMap =>
      exact collectLoop_not_panic n start arrivals createEmptyBalance hA hcoll
    | ok bal1 =>
      rw [hcoll] at hcontra
      dsimp only at hcontra
      have hdom1 : seededDom bal1 = seededDom createEmptyBalance := by
        obtain ⟨new, hIt, hC⟩ := collectLoop_ok n start arrivals createEmptyBalance bal1 hcoll
        funext c
        unfold seededDom
        rw [hC c]
        cases createEmptyBalance.Total.Currencies c <;> rfl
      cases hsvc : runAdjustments applyServiceCommission bal1 (svcOps operations) with
      | none =>
        exact absurd hsvc (runAdjustments_svc_some _ _ (by rw [hdom1]; exact hS))
      | some bal2 =>
        rw [hsvc] at hcontra
        dsimp only at hcontra
        have hdom2 : seededDom bal2 = seededDom bal1 := by
          obtain ⟨hIt2, hC2⟩ := runAdjustments_svc (svcOps operations) bal1 bal2 hsvc
          funext c
          unfold seededDom
          rw [hC2 c]
          cases bal1.Total.Currencies c <;> rfl
        cases htax : runAdjustments applyTaxBack bal2 (taxBackOps operations) with
        | none =>
          exact absurd htax (runAdjustments_tax_some _ _ (by rw [hdom2, hdom1]; exact hT))
        | some bal3 =>
          rw [htax] at hcontra
          simp at hcontra

/-- Witness for claim C10: GBP has no seeded entry, an item in GBP makes
the update undefined, and a run whose currencies are all seeded does not
panic. -/
theorem claim_C10_witness :
    createEmptyBalance.Total.Currencies "GBP" = none ∧
    applyItem createEmptyBalance itemGBP = none ∧
    aggregateBalance [] 0 0 [] ≠ RunResult.panicNilMap := by
  refine ⟨claim_C10.2.1 "GBP" (by decide), ?_, ?_⟩
  · exact claim_C10.2.2.1 createEmptyBalance itemGBP (claim_C10.2.1 "GBP" (by decide))
  · exact claim_C10.2.2.2.2.2 [] 0 0 [] rfl rfl rfl
